import Mathlib

/-!
Verification development for the m2u editor-plugin helper layer
(`Source/m2uPlugin/Private/m2uHelper.h`).

The file gives a shallow embedding of the helper functions
(`ParseList`, `RenameActor`, `GetFreeName`,
`SetActorTransformRelativeFromText`, `AddNewActorFromAsset`) and proves
the specified properties about them.

Modelling conventions:
* `FName` is the host's name type: a plain ("base") string together with an
  internal number.  Internal number `0` means "no numeric suffix"; internal
  number `n + 1` renders as the suffix `_n`.  The constructor-from-string
  splits a trailing `_digits` suffix exactly like the host does (suffix must
  be preceded by an underscore and must not have a leading zero unless it is
  the single digit `0`); the empty string maps to the "no name" sentinel
  `NAME_None`.  Host name comparison is case-insensitive; the model compares
  case-sensitively, which is immaterial to the claims proved here.
* Actors are records of the fields the helper code reads or writes: the
  `FName`, the display label, the three relative-transform components, and
  flags recording the post-edit side effects (lighting-cache invalidation,
  `PostEditMove`, default-subobject check, package dirtying).
* The host services consumed by the code (`Rename` dry-run and commit,
  asset lookup, the actor factory, the object-existence probe) are record
  fields holding arbitrary functions, so the theorems quantify over every
  host behaviour.
* Numeric payloads of the transform text are modelled over `Int`; the
  claims only exercise integer-valued payloads.
-/

namespace M2u

/-- A 3-component vector (used for relative location, rotation and scale). -/
structure Vec3 where
  x : Int
  y : Int
  z : Int
deriving DecidableEq, Repr

/-- The host's object-name type: a base string plus an internal number.
Internal number `0` means "no suffix"; internal number `n + 1` renders as
the textual suffix `_n`. -/
structure FName where
  base : String
  number : Nat
deriving DecidableEq, Repr

/-- The host's "no name" sentinel `NAME_None`, whose string form is `"None"`. -/
def NAME_None : FName := ⟨"None", 0⟩

/-- Numeric value of a list of decimal digit characters. -/
def digitsToNat (ds : List Char) : Nat :=
  ds.foldl (fun acc c => acc * 10 + (c.toNat - 48)) 0

/-- Construction of an `FName` from a string, following the host's
splitting rule: a trailing run of digits is turned into the internal number
(value + 1) when it is preceded by an underscore and has no leading zero
(unless it is the single digit `0`); otherwise the whole string is the base.
The empty string yields `NAME_None`. -/
def FName.ofString (s : String) : FName :=
  if s = "" then NAME_None
  else
    let cs := s.data
    let ds := (cs.reverse.takeWhile Char.isDigit).reverse
    let pre := cs.take (cs.length - ds.length)
    if ds.isEmpty then ⟨s, 0⟩
    else if pre.getLast? = some (Char.ofNat 95) then
      if ds.length > 1 && ds.headD (Char.ofNat 95) = Char.ofNat 48 then ⟨s, 0⟩
      else ⟨String.mk pre.dropLast, digitsToNat ds + 1⟩
    else ⟨s, 0⟩

/-- String form of an `FName`: the base alone when the internal number is
`0`, otherwise the base followed by `_` and the internal number minus one. -/
def FName.toString (f : FName) : String :=
  if f.number = 0 then f.base else f.base ++ "_" ++ Nat.repr (f.number - 1)

/-- The host's `INVALID_OBJECTNAME_CHARACTERS` table (the characters
`"' ,/.:|&!~\n\r\t@#(){}[]=;^%$` and backquote), written with character
codes where a literal would be awkward. -/
def INVALID_OBJECTNAME_CHARACTERS : List Char :=
  [Char.ofNat 34, Char.ofNat 39, ' ', ',', '/', '.', ':', '|', '&', '!', '~',
   Char.ofNat 10, Char.ofNat 13, Char.ofNat 9, '@', '#', '(', ')',
   Char.ofNat 123, Char.ofNat 125, '[', ']', '=', ';', '^', '%', '$',
   Char.ofNat 96]

/-- The sanitization loop shared by `RenameActor` and `GetFreeName`: for
each character of the invalid-character table, remove every occurrence of
that character from the candidate string (`ReplaceInline` with the empty
replacement). -/
def Sanitize (s : String) : String :=
  INVALID_OBJECTNAME_CHARACTERS.foldl
    (fun acc bad => String.mk (acc.data.filter (fun c => c ≠ bad))) s

/-- The fixed generated-name marker `M2U_GENERATED_NAME`. -/
def M2U_GENERATED_NAME : String := "m2uGeneratedName"

/-- The name actually requested after the shared sanitization step: the
`FName` made from the sanitized candidate, with the generated-name marker
substituted when that `FName` is the `NAME_None` sentinel.  This is step 1
of `RenameActor` (for non-empty sanitized candidates) and the pre-loop
computation of `GetFreeName`. -/
def SanitizedFName (Name : String) : FName :=
  let f := FName.ofString (Sanitize Name)
  if f = NAME_None then FName.ofString M2U_GENERATED_NAME else f

/-- An actor, reduced to the fields the helper code reads or writes: its
`FName`, its display label, the three relative-transform components, and
flags recording the post-edit side effects of
`SetActorTransformRelativeFromText`. -/
structure Actor where
  name : FName
  label : String
  loc : Vec3
  rot : Vec3
  scale : Vec3
  bLightingInvalidated : Bool
  bPostEditMoveCalled : Bool
  bSubobjectsChecked : Bool
  bPackageDirty : Bool
deriving DecidableEq, Repr

/-- The host services used by `RenameActor`: the dry-run rename test
(`Rename` with `REN_Test`) and the committed rename, which yields the
`FName` the host actually assigns (read back by `GetFName` after the
commit).  Both are arbitrary functions, so theorems quantify over every
host behaviour. -/
structure RenameHost where
  canRename : Actor → FName → Bool
  commitRename : Actor → FName → FName

/-- Steps 2-4 of `RenameActor` (lines 147-174 of the source), starting from
the already-computed requested `FName`: no-op when the actor already has
that name; otherwise dry-run test, then either commit, read the resulting
name back, set the label to its string form and return it, or (on a
rejected dry run) return the current name unchanged. -/
def RenameActorStep2 (host : RenameHost) (a : Actor) (NewFName : FName) :
    Actor × FName :=
  if a.name = NewFName then (a, a.name)
  else if host.canRename a NewFName then
    let committed : Actor := { a with name := host.commitRename a NewFName }
    let ResultFName := committed.name
    ({ committed with label := ResultFName.toString }, ResultFName)
  else (a, a.name)

/-- `RenameActor`: sanitize the candidate; if the sanitized string is empty
return the current name unchanged; otherwise build the requested `FName`
(with the `NAME_None` marker substitution) and run the rename steps.
Returns the updated actor together with the returned `FName`. -/
def RenameActor (host : RenameHost) (a : Actor) (Name : String) :
    Actor × FName :=
  let GeneratedName := Sanitize Name
  if GeneratedName = "" then (a, a.name)
  else RenameActorStep2 host a (SanitizedFName Name)

/-- The probing loop of `GetFreeName`: starting from the internal number
`num`, keep incrementing the number while an object with the current
`FName` exists in the scope; return the first number whose `FName` is not
in use.  The scope is the (finite) set of `FName`s of the existing objects
searched by `StaticFindObjectFastInternal`. -/
def GetFreeNameLoop (scope : List FName) (base : String) (num : Nat) : Nat :=
  if h : FName.mk base num ∈ scope then GetFreeNameLoop scope base (num + 1)
  else num
termination_by scope.foldr (fun f m => Nat.max f.number m) 0 + 1 - num
decreasing_by
  have hle : num ≤ scope.foldr (fun f m => Nat.max f.number m) 0 := by
    induction scope with
    | nil => cases h
    | cons a t ih =>
      cases h with
      | head =>
        exact Nat.le_max_left _ _
      | tail _ hm =>
        exact le_trans (ih hm) (Nat.le_max_right _ _)
  omega

/-- `GetFreeName`: sanitize the candidate (with the `NAME_None` marker
substitution) and run the probing loop on its internal number, keeping its
base. -/
def GetFreeName (scope : List FName) (Name : String) : FName :=
  let start := SanitizedFName Name
  FName.mk start.base (GetFreeNameLoop scope start.base start.number)

/-- `FCString::Strfind`: the suffix of the character list starting at the
first occurrence of the pattern, or `none` when the pattern does not occur
(a found pattern corresponds to a non-null pointer into the string). -/
def Strfind : List Char → List Char → Option (List Char)
  | [], pat => if pat.isPrefixOf ([] : List Char) then some [] else none
  | c :: rest, pat =>
    if pat.isPrefixOf (c :: rest) then some (c :: rest) else Strfind rest pat

/-- Value and remainder of a leading run of decimal digits. -/
def parseNatFrom (cs : List Char) : Nat × List Char :=
  (digitsToNat (cs.takeWhile Char.isDigit), cs.dropWhile Char.isDigit)

/-- Modelled from the spec: the numeric payloads of the transform text are
space-delimited numbers (`GetFVECTORSpaceDelimited` and
`GetFROTATORSpaceDelimited` live in a part of the plugin that is not among
the given sources).  A single number is an optional minus sign followed by
decimal digits; the claims only exercise integer-valued payloads, so
numbers are modelled over `Int`. -/
def parseIntFrom (cs : List Char) : Int × List Char :=
  match cs with
  | '-' :: rest =>
    let (n, r) := parseNatFrom rest
    (-(n : Int), r)
  | _ =>
    let (n, r) := parseNatFrom cs
    ((n : Int), r)

/-- Modelled from the spec: `GetFVECTORSpaceDelimited` parses three
space-delimited numeric components into a 3-component vector. -/
def GetFVECTORSpaceDelimited (cs : List Char) : Vec3 :=
  let (x, r1) := parseIntFrom cs
  let (y, r2) := parseIntFrom (r1.dropWhile (fun c => c = ' '))
  let (z, _) := parseIntFrom (r2.dropWhile (fun c => c = ' '))
  ⟨x, y, z⟩

/-- Modelled from the spec: `GetFROTATORSpaceDelimited` (with scale factor
1) parses three space-delimited numeric components of a rotation. -/
def GetFROTATORSpaceDelimited (cs : List Char) : Vec3 :=
  GetFVECTORSpaceDelimited cs

/-- `SetActorTransformRelativeFromText`: scan the text for the markers
`T=`, `R=` and `S=`; for each marker found, skip the three characters of
the marker and its opening parenthesis and apply the parsed payload to the
relative location / rotation / scale of the actor; absent markers leave
their component untouched.  Afterwards, unconditionally invalidate the
lighting cache, call `PostEditMove`, check the default subobjects and mark
the package dirty. -/
def SetActorTransformRelativeFromText (a : Actor) (Str : String) : Actor :=
  let cs := Str.data
  let a1 :=
    match Strfind cs ['T', '='] with
    | some s => { a with loc := GetFVECTORSpaceDelimited (s.drop 3) }
    | none => a
  let a2 :=
    match Strfind cs ['R', '='] with
    | some s => { a1 with rot := GetFROTATORSpaceDelimited (s.drop 3) }
    | none => a1
  let a3 :=
    match Strfind cs ['S', '='] with
    | some s => { a2 with scale := GetFVECTORSpaceDelimited (s.drop 3) }
    | none => a2
  { a3 with
    bLightingInvalidated := true
    bPostEditMoveCalled := true
    bSubobjectsChecked := true
    bPackageDirty := true }

/-- Splitting of a character list at every comma, keeping empty pieces
(the character-level core of `FString::ParseIntoArray` with the delimiter
`","`). -/
def splitOnCommaChars : List Char → List (List Char)
  | [] => [[]]
  | c :: rest =>
    if c = ',' then [] :: splitOnCommaChars rest
    else
      match splitOnCommaChars rest with
      | [] => []
      | piece :: pieces => (c :: piece) :: pieces

/-- `FString::ParseIntoArray` with the delimiter `","`: an empty source
string yields no elements; otherwise the string is split at every comma,
and with `InCullEmpty = false` empty pieces are kept (with
`InCullEmpty = true` they are dropped). -/
def ParseIntoArray (s : String) (InCullEmpty : Bool) : List String :=
  if s.data = [] then []
  else
    let pieces := (splitOnCommaChars s.data).map String.mk
    if InCullEmpty then pieces.filter (fun p => p ≠ "") else pieces

/-- `FString::Mid`: the substring of `Count` characters starting at
`Start`. -/
def FStringMid (s : String) (Start Count : Nat) : String :=
  String.mk ((s.data.drop Start).take Count)

/-- `ParseList`: chop the surrounding brackets with `Mid(1, Len - 2)` and
split the remainder at commas without culling empty items. -/
def ParseList (Str : String) : List String :=
  let Chopped := FStringMid Str 1 (Str.length - 2)
  ParseIntoArray Chopped false

/-- Comma-interleaving of a list of character lists (the character-level
form of joining items with `","`). -/
def intercalateComma : List (List Char) → List Char
  | [] => []
  | [x] => x
  | x :: xs => x ++ ',' :: intercalateComma xs

/-- The bracket-delimited, comma-separated string of a list of items, as
described by the spec's list-literal micro-format `[item1,item2,item3]`. -/
def encodeList (items : List String) : String :=
  String.mk ('[' :: intercalateComma (items.map String.data) ++ [']'])

/-- An asset reference, abstract: only its identity matters here. -/
structure Asset where
  id : Nat
deriving DecidableEq, Repr

/-- The host services used by `AddNewActorFromAsset`: asset resolution
(`GetAssetFromPath`) and the actor factory
(`FActorFactoryAssetProxy::AddActorForAsset`, taking the asset, the
location, the selection flag and the name), which may return no actor. -/
structure CreateHost where
  getAssetFromPath : String → Option Asset
  addActorForAsset : Asset → Vec3 → Bool → FName → Option Actor

/-- Outcome of `AddNewActorFromAsset`: a `NULL` return (asset did not
resolve), a fault (the factory returned `NULL` and the code dereferenced
it), or the produced actor. -/
inductive AddActorResult where
  | nullReturn : AddActorResult
  | nullDeref : AddActorResult
  | ok : Actor → AddActorResult
deriving DecidableEq, Repr

/-- `AddNewActorFromAsset`: resolve the asset (return `NULL` when that
fails), substitute the name `"GeneratedName"` for `NAME_None`, call the
factory, then unconditionally dereference the factory's result to set its
label to its name's string form — a `NULL` factory result is a fault, not
a `NULL` return. -/
def AddNewActorFromAsset (host : CreateHost) (AssetPath : String)
    (Name : FName) (bSelectActor : Bool) (Location : Vec3) :
    AddActorResult :=
  match host.getAssetFromPath AssetPath with
  | none => AddActorResult.nullReturn
  | some asset =>
    let UsedName := if Name = NAME_None then FName.ofString "GeneratedName"
      else Name
    match host.addActorForAsset asset Location bSelectActor UsedName with
    | none => AddActorResult.nullDeref
    | some actor =>
      AddActorResult.ok { actor with label := actor.name.toString }

/-- A host that accepts every dry-run rename and commits exactly the
requested name. -/
def idRenameHost : RenameHost := ⟨fun _ _ => true, fun _ f => f⟩

/-- A host that rejects every dry-run rename. -/
def rejectRenameHost : RenameHost := ⟨fun _ _ => false, fun _ f => f⟩

/-- A sample actor named `Chair` with a synced label. -/
def chairActor : Actor :=
  ⟨⟨"Chair", 0⟩, "Chair", ⟨0, 0, 0⟩, ⟨0, 0, 0⟩, ⟨1, 1, 1⟩,
   false, false, false, false⟩

/-- A sample actor named `Chair_5` (internal number 6) with a synced label
and rotation `(10, 20, 30)`. -/
def chair5Actor : Actor :=
  ⟨⟨"Chair", 6⟩, "Chair_5", ⟨0, 0, 0⟩, ⟨10, 20, 30⟩, ⟨1, 1, 1⟩,
   false, false, false, false⟩

/-! ## Helper lemmas -/

theorem foldl_filter_eq_self (l : List Char) :
    ∀ s : String, (∀ c ∈ s.data, c ∉ l) →
      l.foldl (fun acc bad => String.mk (acc.data.filter (fun c => c ≠ bad)))
        s = s := by
  induction l with
  | nil => intro s _; rfl
  | cons bad t ih =>
    intro s hs
    have hfix : s.data.filter (fun c => c ≠ bad) = s.data := by
      apply List.filter_eq_self.mpr
      intro a ha
      have := hs a ha
      simp only [List.mem_cons, not_or] at this
      simp [this.1]
    have hmk : String.mk (s.data.filter (fun c => c ≠ bad)) = s := by
      rw [hfix]
    simp only [List.foldl_cons, hmk]
    apply ih
    intro c hc
    have := hs c hc
    simp only [List.mem_cons, not_or] at this
    exact this.2

theorem Sanitize_eq_self (s : String)
    (h : ∀ c ∈ s.data, c ∉ INVALID_OBJECTNAME_CHARACTERS) :
    Sanitize s = s :=
  foldl_filter_eq_self _ s h

theorem digitChar_isDigit (m : Nat) (h : m < 10) :
    (Nat.digitChar m).isDigit = true := by
  interval_cases m <;> decide

theorem toDigitsCore_isDigit :
    ∀ (fuel n : Nat) (acc : List Char), (∀ c ∈ acc, c.isDigit = true) →
      ∀ c ∈ Nat.toDigitsCore 10 fuel n acc, c.isDigit = true := by
  intro fuel
  induction fuel with
  | zero => intro n acc hacc; exact hacc
  | succ fuel ih =>
    intro n acc hacc c hc
    rw [Nat.toDigitsCore] at hc
    have hd : (Nat.digitChar (n % 10)).isDigit = true :=
      digitChar_isDigit _ (Nat.mod_lt _ (by omega))
    by_cases hz : n / 10 = 0
    · simp only [hz, if_pos] at hc
      rcases List.mem_cons.mp hc with rfl | hmem
      · exact hd
      · exact hacc c hmem
    · simp only [hz, if_neg, ite_false] at hc
      refine ih _ _ ?_ c hc
      intro d hdmem
      rcases List.mem_cons.mp hdmem with rfl | hmem
      · exact hd
      · exact hacc d hmem

theorem repr_data_isDigit (n : Nat) :
    ∀ c ∈ (Nat.repr n).data, c.isDigit = true := by
  intro c hc
  exact toDigitsCore_isDigit _ _ [] (by intro d hd; cases hd) c hc

theorem isDigit_not_invalid (c : Char) (h : c.isDigit = true) :
    c ∉ INVALID_OBJECTNAME_CHARACTERS := by
  intro hmem
  have hall : ∀ x ∈ INVALID_OBJECTNAME_CHARACTERS, x.isDigit = false := by
    decide
  have := hall c hmem
  rw [h] at this
  cases this

theorem GetFreeNameLoop_ge (scope : List FName) (base : String) (num : Nat) :
    num ≤ GetFreeNameLoop scope base num := by
  induction num using GetFreeNameLoop.induct scope base with
  | case1 x hmem ih =>
    rw [GetFreeNameLoop, dif_pos hmem]
    omega
  | case2 x hmem =>
    rw [GetFreeNameLoop, dif_neg hmem]

theorem GetFreeNameLoop_not_mem (scope : List FName) (base : String)
    (num : Nat) : FName.mk base (GetFreeNameLoop scope base num) ∉ scope := by
  induction num using GetFreeNameLoop.induct scope base with
  | case1 x hmem ih =>
    rw [GetFreeNameLoop, dif_pos hmem]
    exact ih
  | case2 x hmem =>
    rw [GetFreeNameLoop, dif_neg hmem]
    exact hmem

theorem GetFreeNameLoop_min (scope : List FName) (base : String) (num : Nat) :
    ∀ m, num ≤ m → m < GetFreeNameLoop scope base num →
      FName.mk base m ∈ scope := by
  induction num using GetFreeNameLoop.induct scope base with
  | case1 x hmem ih =>
    intro m hm hlt
    rw [GetFreeNameLoop, dif_pos hmem] at hlt
    rcases Nat.eq_or_lt_of_le hm with rfl | hlt2
    · exact hmem
    · exact ih m hlt2 hlt
  | case2 x hmem =>
    intro m hm hlt
    rw [GetFreeNameLoop, dif_neg hmem] at hlt
    omega

theorem Sanitize_toString_eq (f : FName)
    (hbase : ∀ c ∈ f.base.data, c ∉ INVALID_OBJECTNAME_CHARACTERS) :
    Sanitize f.toString = f.toString := by
  apply Sanitize_eq_self
  intro c hc
  unfold FName.toString at hc
  by_cases h0 : f.number = 0
  · rw [if_pos h0] at hc
    exact hbase c hc
  · rw [if_neg h0] at hc
    have hdata : (f.base ++ "_" ++ Nat.repr (f.number - 1)).data =
        f.base.data ++ '_' :: (Nat.repr (f.number - 1)).data := by
      simp [String.data_append]
    rw [hdata] at hc
    rcases List.mem_append.mp hc with hb | hrest
    · exact hbase c hb
    · rcases List.mem_cons.mp hrest with rfl | hd
      · decide
      · exact isDigit_not_invalid c (repr_data_isDigit _ c hd)

/-! ## Claim theorems -/

/-- C1: on every return path of `RenameActor`, if the actor's display label
was in sync with its `FName` before the call, then afterwards the label
equals the string form of the actually-resulting `FName`, and the returned
`FName` is that resulting `FName`; on the paths where the identifier cannot
be changed (empty sanitization, no-op, host-rejected rename) the label is
left untouched in its previous synced state, so label and identifier never
diverge. -/
theorem RenameActor_label_syncs_C1 (host : RenameHost) (a : Actor)
    (Name : String) (h : a.label = a.name.toString) :
    ((RenameActor host a Name).1).label =
        ((RenameActor host a Name).1).name.toString ∧
      (RenameActor host a Name).2 = ((RenameActor host a Name).1).name := by
  by_cases h1 : Sanitize Name = ""
  · have hr : RenameActor host a Name = (a, a.name) := by
      simp [RenameActor, h1]
    rw [hr]
    exact ⟨h, rfl⟩
  · have hr : RenameActor host a Name =
        RenameActorStep2 host a (SanitizedFName Name) := by
      simp [RenameActor, h1]
    rw [hr]
    unfold RenameActorStep2
    by_cases h2 : a.name = SanitizedFName Name
    · rw [if_pos h2]
      exact ⟨h, rfl⟩
    · rw [if_neg h2]
      by_cases h3 : host.canRename a (SanitizedFName Name)
      · rw [if_pos h3]
        exact ⟨rfl, rfl⟩
      · rw [if_neg h3]
        exact ⟨h, rfl⟩

/-- C1 witness: the label-sync postcondition at a concrete host, actor and
candidate. -/
theorem RenameActor_label_syncs_C1_witness :
    chairActor.label = chairActor.name.toString ∧
      (((RenameActor idRenameHost chairActor "Table").1).label =
          ((RenameActor idRenameHost chairActor "Table").1).name.toString ∧
        (RenameActor idRenameHost chairActor "Table").2 =
          ((RenameActor idRenameHost chairActor "Table").1).name) :=
  ⟨by decide,
   RenameActor_label_syncs_C1 idRenameHost chairActor "Table" (by decide)⟩

/-- C2 counterexample: a candidate consisting of a single invalid character
sanitizes to the empty string, but `RenameActor` then returns the actor's
current `FName` unchanged and does not substitute the generated-name
marker anywhere (the actor is untouched). -/
theorem RenameActor_empty_no_marker_C2 :
    Sanitize "." = "" ∧
      (RenameActor idRenameHost chairActor ".").2 = FName.mk "Chair" 0 ∧
      FName.mk "Chair" 0 ≠ FName.ofString M2U_GENERATED_NAME ∧
      (RenameActor idRenameHost chairActor ".").1 = chairActor := by
  decide

/-- C2 amended: the shared sanitization step yields the generated-name
marker when the candidate sanitizes to the empty string or to the host's
`NAME_None` sentinel, and `GetFreeName` builds its result on that marker in
both cases; `RenameActor`, however, uses the marker only for non-empty
sanitized candidates (the sentinel case), while a candidate that sanitizes
to empty makes it return the actor's current identifier unchanged.
Neither condition is surfaced as an error. -/
theorem Sanitization_marker_C2_amended (host : RenameHost) (a : Actor)
    (Name : String) :
    ((Sanitize Name = "" ∨ FName.ofString (Sanitize Name) = NAME_None) →
        SanitizedFName Name = FName.ofString M2U_GENERATED_NAME) ∧
      (Sanitize Name = "" → RenameActor host a Name = (a, a.name)) ∧
      (Sanitize Name ≠ "" → RenameActor host a Name =
        RenameActorStep2 host a (SanitizedFName Name)) ∧
      ∀ scope : List FName,
        (Sanitize Name = "" ∨ FName.ofString (Sanitize Name) = NAME_None) →
          (GetFreeName scope Name).base = M2U_GENERATED_NAME := by
  have hmark : (Sanitize Name = "" ∨
      FName.ofString (Sanitize Name) = NAME_None) →
      SanitizedFName Name = FName.ofString M2U_GENERATED_NAME := by
    intro h
    unfold SanitizedFName
    rcases h with he | hn
    · rw [he]
      rfl
    · rw [if_pos hn]
  refine ⟨hmark, ?_, ?_, ?_⟩
  · intro he
    simp [RenameActor, he]
  · intro hne
    simp [RenameActor, hne]
  · intro scope h
    have := hmark h
    simp [GetFreeName, this]
    rfl

/-- C2 amended witness: the amended statement at a concrete host, actor and
candidate (a candidate that sanitizes to empty). -/
theorem Sanitization_marker_C2_amended_witness :
    Sanitize "." = "" ∧
      SanitizedFName "." = FName.ofString M2U_GENERATED_NAME ∧
      RenameActor idRenameHost chairActor "." =
        (chairActor, chairActor.name) ∧
      (GetFreeName [] ".").base = M2U_GENERATED_NAME :=
  ⟨by decide,
   (Sanitization_marker_C2_amended idRenameHost chairActor ".").1
     (Or.inl (by decide)),
   (Sanitization_marker_C2_amended idRenameHost chairActor ".").2.1
     (by decide),
   (Sanitization_marker_C2_amended idRenameHost chairActor ".").2.2.2 []
     (Or.inl (by decide))⟩

/-- C4: when the sanitized candidate is non-empty, differs (as an
identifier) from the actor's current name, and the host's dry-run rename
rejects it, `RenameActor` returns the actor's prior identifier unchanged
and commits no rename: the actor is returned exactly as it was. -/
theorem RenameActor_rejected_C4 (host : RenameHost) (a : Actor)
    (Name : String) (h1 : Sanitize Name ≠ "")
    (h2 : a.name ≠ SanitizedFName Name)
    (h3 : host.canRename a (SanitizedFName Name) = false) :
    RenameActor host a Name = (a, a.name) := by
  simp [RenameActor, h1, RenameActorStep2, h2, h3]

/-- C4 witness: a rejecting host leaves a concrete actor unchanged. -/
theorem RenameActor_rejected_C4_witness :
    Sanitize "Table" ≠ "" ∧
      chairActor.name ≠ SanitizedFName "Table" ∧
      rejectRenameHost.canRename chairActor (SanitizedFName "Table") =
        false ∧
      RenameActor rejectRenameHost chairActor "Table" =
        (chairActor, chairActor.name) :=
  ⟨by decide, by decide, by decide,
   RenameActor_rejected_C4 rejectRenameHost chairActor "Table" (by decide)
     (by decide) (by decide)⟩

/-- C5: `RenameActor` is idempotent: renaming an actor to the string form
of its own current `FName` returns that `FName` and leaves the actor
unchanged (the current name's string is assumed to contain no invalid
characters and to round-trip through `FName` construction, and the current
name is not the `NAME_None` sentinel — all of which hold for every name
the host actually assigns). -/
theorem RenameActor_idempotent_C5 (host : RenameHost) (a : Actor)
    (h1 : Sanitize a.name.toString = a.name.toString)
    (h2 : FName.ofString a.name.toString = a.name)
    (h3 : a.name ≠ NAME_None) :
    RenameActor host a a.name.toString = (a, a.name) := by
  have hne : a.name.toString ≠ "" := by
    intro he
    apply h3
    rw [← h2, he]
    rfl
  have hgen : Sanitize a.name.toString ≠ "" := by
    rw [h1]
    exact hne
  have hfn : SanitizedFName a.name.toString = a.name := by
    unfold SanitizedFName
    rw [h1, h2, if_neg h3]
  simp [RenameActor, hgen, RenameActorStep2, hfn]

/-- C5 witness: idempotence at a concrete actor named `Chair_5`. -/
theorem RenameActor_idempotent_C5_witness :
    Sanitize chair5Actor.name.toString = chair5Actor.name.toString ∧
      FName.ofString chair5Actor.name.toString = chair5Actor.name ∧
      chair5Actor.name ≠ NAME_None ∧
      RenameActor idRenameHost chair5Actor chair5Actor.name.toString =
        (chair5Actor, chair5Actor.name) :=
  ⟨by decide, by decide, by decide,
   RenameActor_idempotent_C5 idRenameHost chair5Actor (by decide)
     (by decide) (by decide)⟩

/-- C3: if an object `Chair_5` exists in the scope, `GetFreeName` on the
candidate `Chair_5` preserves the base name `Chair`, starts probing at the
suffix already embedded in the candidate (internal number 6), returns the
first identifier not in use (every probed identifier below the result was
in use), never returns `Chair_5` itself, and the returned identifier is
sanitized and not in use. -/
theorem GetFreeName_Chair5_C3 (scope : List FName)
    (h : FName.mk "Chair" 6 ∈ scope) :
    (GetFreeName scope "Chair_5").base = "Chair" ∧
      6 ≤ (GetFreeName scope "Chair_5").number ∧
      GetFreeName scope "Chair_5" ∉ scope ∧
      (∀ m, 6 ≤ m → m < (GetFreeName scope "Chair_5").number →
        FName.mk "Chair" m ∈ scope) ∧
      GetFreeName scope "Chair_5" ≠ FName.mk "Chair" 6 ∧
      Sanitize (GetFreeName scope "Chair_5").toString =
        (GetFreeName scope "Chair_5").toString := by
  have hstart : SanitizedFName "Chair_5" = FName.mk "Chair" 6 := by decide
  have hgf : GetFreeName scope "Chair_5" =
      FName.mk "Chair" (GetFreeNameLoop scope "Chair" 6) := by
    unfold GetFreeName
    rw [hstart]
  rw [hgf]
  refine ⟨rfl, GetFreeNameLoop_ge scope "Chair" 6,
    GetFreeNameLoop_not_mem scope "Chair" 6, ?_, ?_, ?_⟩
  · intro m hm hlt
    exact GetFreeNameLoop_min scope "Chair" 6 m hm hlt
  · intro heq
    apply GetFreeNameLoop_not_mem scope "Chair" 6
    rw [heq]
    exact h
  · have hbase : ∀ c ∈ ("Chair" : String).data,
        c ∉ INVALID_OBJECTNAME_CHARACTERS := by decide
    exact Sanitize_toString_eq _ hbase

/-- C3 witness: with exactly `Chair_5` in scope, the guarantees of the
uniqueness loop hold. -/
theorem GetFreeName_Chair5_C3_witness :
    FName.mk "Chair" 6 ∈ [FName.mk "Chair" 6] ∧
      ((GetFreeName [FName.mk "Chair" 6] "Chair_5").base = "Chair" ∧
        6 ≤ (GetFreeName [FName.mk "Chair" 6] "Chair_5").number ∧
        GetFreeName [FName.mk "Chair" 6] "Chair_5" ∉
          [FName.mk "Chair" 6] ∧
        (∀ m, 6 ≤ m →
          m < (GetFreeName [FName.mk "Chair" 6] "Chair_5").number →
            FName.mk "Chair" m ∈ [FName.mk "Chair" 6]) ∧
        GetFreeName [FName.mk "Chair" 6] "Chair_5" ≠ FName.mk "Chair" 6 ∧
        Sanitize (GetFreeName [FName.mk "Chair" 6] "Chair_5").toString =
          (GetFreeName [FName.mk "Chair" 6] "Chair_5").toString) :=
  ⟨by decide, GetFreeName_Chair5_C3 [FName.mk "Chair" 6] (by decide)⟩

/-- C6: applying the text `T=(1 2 3)` to an actor with pre-existing
rotation `(10,20,30)` sets the relative location to `(1,2,3)` and leaves
the rotation at `(10,20,30)` and the scale unchanged: absent markers never
reset their component. -/
theorem Transform_field_independent_C6 (a : Actor)
    (h : a.rot = Vec3.mk 10 20 30) :
    (SetActorTransformRelativeFromText a "T=(1 2 3)").loc = ⟨1, 2, 3⟩ ∧
      (SetActorTransformRelativeFromText a "T=(1 2 3)").rot =
        ⟨10, 20, 30⟩ ∧
      (SetActorTransformRelativeFromText a "T=(1 2 3)").scale = a.scale :=
  ⟨rfl, h, rfl⟩

/-- C6 witness: the field-independence property at a concrete actor with
rotation `(10,20,30)`. -/
theorem Transform_field_independent_C6_witness :
    chair5Actor.rot = Vec3.mk 10 20 30 ∧
      ((SetActorTransformRelativeFromText chair5Actor "T=(1 2 3)").loc =
          ⟨1, 2, 3⟩ ∧
        (SetActorTransformRelativeFromText chair5Actor "T=(1 2 3)").rot =
          ⟨10, 20, 30⟩ ∧
        (SetActorTransformRelativeFromText chair5Actor "T=(1 2 3)").scale =
          chair5Actor.scale) :=
  ⟨by decide, Transform_field_independent_C6 chair5Actor (by decide)⟩

/-- C7: marker order in the input text does not affect the result: for
every actor, the texts `S=(2 2 2) T=(0 0 0)` and `T=(0 0 0) S=(2 2 2)`
produce identical resulting transforms. -/
theorem Transform_order_independent_C7 (a : Actor) :
    SetActorTransformRelativeFromText a "S=(2 2 2) T=(0 0 0)" =
      SetActorTransformRelativeFromText a "T=(0 0 0) S=(2 2 2)" := rfl

/-- C8: on a text containing none of the markers `T=`, `R=`, `S=`, the
transform components are left entirely unchanged, but the
cache-invalidation, transform-change notification, subobject-consistency
check and mark-modified side effects are still performed. -/
theorem Transform_no_markers_C8 (a : Actor) (Str : String)
    (hT : Strfind Str.data ['T', '='] = none)
    (hR : Strfind Str.data ['R', '='] = none)
    (hS : Strfind Str.data ['S', '='] = none) :
    SetActorTransformRelativeFromText a Str =
      { a with
        bLightingInvalidated := true
        bPostEditMoveCalled := true
        bSubobjectsChecked := true
        bPackageDirty := true } := by
  unfold SetActorTransformRelativeFromText
  simp only [hT, hR, hS]

/-- C8 witness: the no-marker behaviour at a concrete actor and text. -/
theorem Transform_no_markers_C8_witness :
    Strfind "hello".data ['T', '='] = none ∧
      Strfind "hello".data ['R', '='] = none ∧
      Strfind "hello".data ['S', '='] = none ∧
      SetActorTransformRelativeFromText chairActor "hello" =
        { chairActor with
          bLightingInvalidated := true
          bPostEditMoveCalled := true
          bSubobjectsChecked := true
          bPackageDirty := true } :=
  ⟨by decide, by decide, by decide,
   Transform_no_markers_C8 chairActor "hello" (by decide) (by decide)
     (by decide)⟩

theorem splitOnCommaChars_no_comma :
    ∀ x : List Char, ',' ∉ x → splitOnCommaChars x = [x] := by
  intro x
  induction x with
  | nil => intro _; rfl
  | cons c r ih =>
    intro h
    simp only [List.mem_cons, not_or] at h
    simp only [splitOnCommaChars]
    rw [if_neg (fun he => h.1 he.symm), ih h.2]

theorem splitOnCommaChars_append (t : List Char) :
    ∀ x : List Char, ',' ∉ x →
      splitOnCommaChars (x ++ ',' :: t) = x :: splitOnCommaChars t := by
  intro x
  induction x with
  | nil =>
    intro _
    simp [splitOnCommaChars]
  | cons c r ih =>
    intro h
    simp only [List.mem_cons, not_or] at h
    rw [List.cons_append, splitOnCommaChars,
      if_neg (fun he => h.1 he.symm), ih h.2]

theorem splitOnCommaChars_intercalate :
    ∀ ls : List (List Char), ls ≠ [] → (∀ l ∈ ls, ',' ∉ l) →
      splitOnCommaChars (intercalateComma ls) = ls := by
  intro ls
  induction ls with
  | nil => intro h _; cases h rfl
  | cons x xs ih =>
    intro _ hall
    cases xs with
    | nil =>
      exact splitOnCommaChars_no_comma x (hall x (List.mem_cons_self x []))
    | cons y t =>
      have hstep : intercalateComma (x :: y :: t) =
          x ++ ',' :: intercalateComma (y :: t) := rfl
      rw [hstep,
        splitOnCommaChars_append _ x (hall x (List.mem_cons_self x _)),
        ih (by simp) (fun l hl => hall l (List.mem_cons_of_mem x hl))]

theorem map_mk_data :
    ∀ l : List String, (l.map String.data).map String.mk = l := by
  intro l
  induction l with
  | nil => rfl
  | cons s t ih =>
    simp only [List.map_cons]
    rw [ih]

/-- C9: `ParseList` decodes the bracket-delimited, comma-separated string
of any item sequence back into exactly that ordered sequence, empty items
preserved, provided the items contain no comma or bracket characters (and
the sequence is not empty or the single empty item, so that the chopped
body is non-empty). -/
theorem ParseList_decodes_C9 (items : List String) (h1 : items ≠ [])
    (h2 : items ≠ [""])
    (h3 : ∀ it ∈ items, ∀ c ∈ it.data, c ≠ ',' ∧ c ≠ '[' ∧ c ≠ ']') :
    ParseList (encodeList items) = items := by
  have hnc : ∀ l ∈ items.map String.data, ',' ∉ l := by
    intro l hl hcl
    rcases List.mem_map.mp hl with ⟨s, hs, rfl⟩
    exact (h3 s hs ',' hcl).1 rfl
  have hdata : (encodeList items).data =
      '[' :: intercalateComma (items.map String.data) ++ [']'] := rfl
  have hlen : (encodeList items).length =
      (intercalateComma (items.map String.data)).length + 2 := by
    show (encodeList items).data.length = _
    rw [hdata]
    simp
  have hmid : FStringMid (encodeList items) 1
      ((encodeList items).length - 2) =
      String.mk (intercalateComma (items.map String.data)) := by
    unfold FStringMid
    rw [hlen, hdata]
    have hdrop : (('[' :: intercalateComma (items.map String.data) ++
        [']']).drop 1) = intercalateComma (items.map String.data) ++ [']'] :=
      rfl
    rw [hdrop]
    have htake : (intercalateComma (items.map String.data) ++ [']']).take
        ((intercalateComma (items.map String.data)).length + 2 - 2) =
        intercalateComma (items.map String.data) := by
      have h22 : (intercalateComma (items.map String.data)).length + 2 - 2 =
          (intercalateComma (items.map String.data)).length := by omega
      rw [h22, List.take_left]
    rw [htake]
  have hbody_ne : intercalateComma (items.map String.data) ≠ [] := by
    cases items with
    | nil => exact absurd rfl h1
    | cons x xs =>
      cases xs with
      | nil =>
        intro he
        apply h2
        have hx : x.data = [] := he
        have : x = "" := by
          cases x
          simp at hx
          rw [hx]
        rw [this]
      | cons y t =>
        intro he
        simp [intercalateComma] at he
  unfold ParseList
  rw [hmid]
  unfold ParseIntoArray
  rw [if_neg hbody_ne]
  show (splitOnCommaChars (intercalateComma (items.map String.data))).map
    String.mk = items
  rw [splitOnCommaChars_intercalate (items.map String.data)
    (by simpa using h1) hnc, map_mk_data]

/-- C9 witness: decoding `[a,b,,d]` yields exactly `["a","b","","d"]`,
empty item preserved. -/
theorem ParseList_decodes_C9_witness :
    encodeList ["a", "b", "", "d"] = "[a,b,,d]" ∧
      ParseList "[a,b,,d]" = ["a", "b", "", "d"] := by
  refine ⟨by decide, ?_⟩
  have h := ParseList_decodes_C9 ["a", "b", "", "d"] (by decide) (by decide)
    (by decide)
  rwa [show encodeList ["a", "b", "", "d"] = "[a,b,,d]" by decide] at h

/-- C10: `AddNewActorFromAsset` returns `NULL` exactly when the asset
reference does not resolve; it faults (dereferences the factory's `NULL`
result) exactly when the asset resolves but the host factory returns no
actor — a `NULL` factory result is never checked or propagated as a `NULL`
return, so the operation returns without fault only under the precondition
that the factory call returns a valid actor. -/
theorem AddNewActorFromAsset_totality_C10 (host : CreateHost)
    (AssetPath : String) (Name : FName) (sel : Bool) (Loc : Vec3) :
    (AddNewActorFromAsset host AssetPath Name sel Loc =
        AddActorResult.nullReturn ↔
      host.getAssetFromPath AssetPath = none) ∧
      (AddNewActorFromAsset host AssetPath Name sel Loc =
          AddActorResult.nullDeref ↔
        ∃ asset, host.getAssetFromPath AssetPath = some asset ∧
          host.addActorForAsset asset Loc sel
            (if Name = NAME_None then FName.ofString "GeneratedName"
              else Name) = none) := by
  unfold AddNewActorFromAsset
  cases hA : host.getAssetFromPath AssetPath with
  | none => simp
  | some asset =>
    dsimp only
    cases hF : host.addActorForAsset asset Loc sel
        (if Name = NAME_None then FName.ofString "GeneratedName"
          else Name) with
    | none => simp [hF]
    | some actor => simp [hF]

end M2u
